import Mathlib

/-!
Verification development for the RecruitPro recruitment-management backend:
a shallow embedding of the candidate/job upload pipeline, the
matching/scoring aggregation, and the query layer, with theorems checking
the natural-language specification against the code.

Embedding conventions:
* Mongo documents and Python dicts are association lists `List (String × Val)`
  with Python dict semantics (later assignment to an existing key updates the
  value in place; a fresh key is appended).
* JSON scalar values and string lists are represented exactly; nested JSON
  values that the pipeline never inspects are represented by opaque atoms
  (`Val.vatom`), which preserves every observation the code makes of them.
* Python floats are idealised as exact rationals `ℚ`.
* External black boxes (text extraction, the LLM parser/scorer calls,
  Firebase auth) are oracle parameters; their outputs are universally
  quantified in the theorems.
* `uuid.uuid4()` / GridFS ObjectIds are modelled by a fresh-name counter.
* Raised exceptions are `Except` / `Sum` errors; FastAPI's conversion of an
  unhandled or re-raised exception into an HTTP error response is modelled by
  the error component of the result.
-/

namespace RecruitPro

/-- JSON/BSON values as the pipeline observes them.  Values whose inner
structure the code never inspects (nested objects/arrays other than string
lists) are opaque atoms. -/
inductive Val where
  | vstr (s : String)
  | vnum (q : ℚ)
  | vbool (b : Bool)
  | vnull
  | vstrlist (l : List String)
  | vatom (n : Nat)
deriving DecidableEq

/-- Shorthand for string values. -/
def vs (s : String) : Val := Val.vstr s

instance {e a : Type} [DecidableEq e] [DecidableEq a] : DecidableEq (Except e a) :=
  fun x y =>
    match x, y with
    | .error u, .error v =>
      if h : u = v then .isTrue (by rw [h]) else .isFalse (fun hc => h (by injection hc))
    | .error _, .ok _ => .isFalse (fun hc => Except.noConfusion hc)
    | .ok _, .error _ => .isFalse (fun hc => Except.noConfusion hc)
    | .ok u, .ok v =>
      if h : u = v then .isTrue (by rw [h]) else .isFalse (fun hc => h (by injection hc))

/-- A Python dict / Mongo document: ordered association list of fields. -/
abbrev Doc := List (String × Val)

/-- Dict lookup (`d[k]` / `d.get(k)`): first binding of the key. -/
def dget : Doc → String → Option Val
  | [], _ => none
  | (k', v) :: d, k => if k' = k then some v else dget d k

/-- `d.get(k, default)`. -/
def getD (d : Doc) (k : String) (v : Val) : Val := (dget d k).getD v

/-- Key-presence test (`k in d`). -/
def hasKey (d : Doc) (k : String) : Bool := (dget d k).isSome

/-- Python dict assignment `d[k] = v`: updates the first binding of `k` in
place, or appends a fresh binding. -/
def dset : Doc → String → Val → Doc
  | [], k, v => [(k, v)]
  | (k', w) :: d, k, v => if k' = k then (k, v) :: d else (k', w) :: dset d k v

/-- Python `{**d, **e}` / Mongo `$set` of the fields of `e` onto `d`:
assign each binding of `e` onto `d` in order. -/
def dictExtend (d : Doc) (e : Doc) : Doc := e.foldl (fun acc p => dset acc p.1 p.2) d

/-- Keys of a document, in order. -/
def keys (d : Doc) : List String := d.map Prod.fst

/-- A document with no repeated key — the shape of every real Python dict. -/
def NodupKeys (d : Doc) : Prop := (keys d).Nodup

/-- Mongo filter condition on one field: equality, `$gte` on a number, or
`$in` a list of strings. -/
inductive Cond where
  | ceq (v : Val)
  | cgte (q : ℚ)
  | cinStr (l : List String)
deriving DecidableEq

/-- A Mongo filter: conjunction of per-field conditions. -/
abbrev Filter := List (String × Cond)

/-- Does field `k` of document `d` satisfy the condition?  Mongo semantics:
a missing field matches no equality/range condition used here, and `$gte`
only matches a numeric value. -/
def condMatches (d : Doc) (k : String) : Cond → Bool
  | .ceq v => match dget d k with
    | some w => w == v
    | none => false
  | .cgte q => match dget d k with
    | some (.vnum x) => q ≤ x
    | _ => false
  | .cinStr l => match dget d k with
    | some (.vstr s) => l.contains s
    | _ => false

/-- A document matches a filter when it satisfies every condition. -/
def matchesFilter (flt : Filter) (d : Doc) : Bool :=
  flt.all fun p => condMatches d p.1 p.2

/-- `find_one`: first matching document in insertion order. -/
def findOne (coll : List Doc) (flt : Filter) : Option Doc :=
  coll.find? (matchesFilter flt)

/-- `find`: all matching documents in insertion order. -/
def findAll (coll : List Doc) (flt : Filter) : List Doc :=
  coll.filter (matchesFilter flt)

/-- `count_documents`. -/
def countDocs (coll : List Doc) (flt : Filter) : Nat :=
  (findAll coll flt).length

/-- `insert_one`. -/
def insertOne (coll : List Doc) (d : Doc) : List Doc := coll ++ [d]

/-- The document Mongo synthesises from the equality fields of an upsert
filter before applying `$set`. -/
def docOfFilter (flt : Filter) : Doc :=
  flt.foldl (fun d p => match p.2 with | .ceq v => dset d p.1 v | _ => d) []

/-- `update_one(filter, {"$set": data}, upsert=True)`: `$set` the fields of
`data` onto the first matching document, else insert a new document built
from the filter's equality fields plus `data`. -/
def updateOneSet (flt : Filter) (data : Doc) : List Doc → List Doc
  | [] => [dictExtend (docOfFilter flt) data]
  | d :: ds =>
    if matchesFilter flt d then dictExtend d data :: ds
    else d :: updateOneSet flt data ds

/-! ## SHA-256 (`hashlib.sha256(content).hexdigest()`), executable model -/

/-- 2^32, the word modulus of SHA-256. -/
def M32 : Nat := 4294967296

/-- 32-bit right rotation. -/
def rotr (n x : Nat) : Nat := ((x >>> n) ||| (x <<< (32 - n))) % M32

/-- 32-bit complement. -/
def bnot32 (x : Nat) : Nat := 4294967295 ^^^ x

/-- SHA-256 round constants. -/
def sha256K : List Nat :=
  [1116352408, 1899447441, 3049323471, 3921009573, 961987163, 1508970993,
   2453635748, 2870763221, 3624381080, 310598401, 607225278, 1426881987,
   1925078388, 2162078206, 2614888103, 3248222580, 3835390401, 4022224774,
   264347078, 604807628, 770255983, 1249150122, 1555081692, 1996064986,
   2554220882, 2821834349, 2952996808, 3210313671, 3336571891, 3584528711,
   113926993, 338241895, 666307205, 773529912, 1294757372, 1396182291,
   1695183700, 1986661051, 2177026350, 2456956037, 2730485921, 2820302411,
   3259730800, 3345764771, 3516065817, 3600352804, 4094571909, 275423344,
   430227734, 506948616, 659060556, 883997877, 958139571, 1322822218,
   1537002063, 1747873779, 1955562222, 2024104815, 2227730452, 2361852424,
   2428436474, 2756734187, 3204031479, 3329325298]

/-- SHA-256 initial hash state. -/
def sha256H0 : List Nat :=
  [1779033703, 3144134277, 1013904242, 2773480762, 1359893119, 2600822924,
   528734635, 1541459225]

/-- Big-endian 64-bit length field of the padding. -/
def lenBytes (bitlen : Nat) : List Nat :=
  [(bitlen >>> 56) % 256, (bitlen >>> 48) % 256, (bitlen >>> 40) % 256, (bitlen >>> 32) % 256,
   (bitlen >>> 24) % 256, (bitlen >>> 16) % 256, (bitlen >>> 8) % 256, bitlen % 256]

/-- SHA-256 message padding. -/
def sha256pad (msg : List Nat) : List Nat :=
  let len := msg.length
  let zeros := (120 - ((len + 1) % 64)) % 64
  msg ++ [128] ++ List.replicate zeros 0 ++ lenBytes (len * 8)

/-- Bytes to big-endian 32-bit words. -/
def toWords : List Nat → List Nat
  | a :: b :: c :: d :: rest => (((a * 256 + b) * 256 + c) * 256 + d) :: toWords rest
  | _ => []

/-- Small sigma-0 of the message schedule. -/
def ssig0 (x : Nat) : Nat := (rotr 7 x) ^^^ (rotr 18 x) ^^^ (x >>> 3)

/-- Small sigma-1 of the message schedule. -/
def ssig1 (x : Nat) : Nat := (rotr 17 x) ^^^ (rotr 19 x) ^^^ (x >>> 10)

/-- Extend a 16-word block by `n` further schedule words. -/
def extendW (w : List Nat) : Nat → List Nat
  | 0 => w
  | Nat.succ n =>
    let i := w.length
    let x := (w.getD (i - 16) 0 + ssig0 (w.getD (i - 15) 0) +
              w.getD (i - 7) 0 + ssig1 (w.getD (i - 2) 0)) % M32
    extendW (w ++ [x]) n

/-- One SHA-256 compression round on the 8-word working state. -/
def compressRound : List Nat → Nat × Nat → List Nat
  | [a, b, c, d, e, f, g, hh], (k, w) =>
    let S1 := (rotr 6 e) ^^^ (rotr 11 e) ^^^ (rotr 25 e)
    let ch := (e &&& f) ^^^ ((bnot32 e) &&& g)
    let t1 := (hh + S1 + ch + k + w) % M32
    let S0 := (rotr 2 a) ^^^ (rotr 13 a) ^^^ (rotr 22 a)
    let mj := (a &&& b) ^^^ (a &&& c) ^^^ (b &&& c)
    let t2 := (S0 + mj) % M32
    [(t1 + t2) % M32, a, b, c, (d + t1) % M32, e, f, g]
  | st, _ => st

/-- Process one 64-byte block. -/
def processBlock (hs : List Nat) (block : List Nat) : List Nat :=
  let w := extendW (toWords block) 48
  let st := (sha256K.zip w).foldl compressRound hs
  (hs.zip st).map (fun p => (p.1 + p.2) % M32)

/-- Split a (padded) message into 64-byte blocks. -/
def chunks (l : List Nat) : List (List Nat) :=
  (List.range ((l.length + 63) / 64)).map (fun i => (l.drop (64 * i)).take 64)

/-- SHA-256 digest as eight 32-bit words. -/
def sha256words (msg : List Nat) : List Nat :=
  (chunks (sha256pad msg)).foldl processBlock sha256H0

/-- Lower-case hex digit. -/
def hexDigit (n : Nat) : Char := if n < 10 then Char.ofNat (48 + n) else Char.ofNat (87 + n)

/-- One 32-bit word as eight hex digits. -/
def word2hex (w : Nat) : String :=
  String.mk [hexDigit ((w >>> 28) % 16), hexDigit ((w >>> 24) % 16), hexDigit ((w >>> 20) % 16),
             hexDigit ((w >>> 16) % 16), hexDigit ((w >>> 12) % 16), hexDigit ((w >>> 8) % 16),
             hexDigit ((w >>> 4) % 16), hexDigit (w % 16)]

/-- `hashlib.sha256(msg).hexdigest()`. -/
def hexdigest (msg : List Nat) : String :=
  String.join ((sha256words msg).map word2hex)

/-- `generate_file_hash` of `candidates.py` / `job_descriptions.py`: SHA-256
hexdigest of the raw file content. -/
def generate_file_hash (content : List Nat) : String := hexdigest content

theorem sha256_empty_vector :
    hexdigest [] = "e3b0c44298fc1c149afbf4c8996fb92427ae41e4649b934ca495991b7852b855" := by rfl

theorem sha256_abc_vector :
    hexdigest [97, 98, 99] =
      "ba7816bf8f01cfea414140de5dae2223b00361a396177a9cb410ff61f20015ad" := by rfl

/-! ## Python runtime errors and truthiness -/

/-- Python runtime exceptions the aggregation loop can raise (unhandled,
they surface as an HTTP 500 of the request). -/
inductive PyErr where
  | typeError
  | keyError (k : String)
deriving DecidableEq

/-- Python truthiness of a field value, as used by `if parsed_data.get(...):`.
Opaque atoms stand for nested containers, taken nonempty/truthy. -/
def pyTruthy : Option Val → Bool
  | some (.vstr s) => !(s == "")
  | some (.vnum q) => !(q == 0)
  | some (.vbool b) => b
  | some .vnull => false
  | some (.vstrlist l) => !l.isEmpty
  | some (.vatom _) => true
  | none => false

/-- Rendering of a value inside a Python f-string (email / title / company
values in skip messages; these are strings in every real run). -/
def strOfVal : Val → String
  | .vstr s => s
  | .vnum q => toString q
  | .vbool true => "True"
  | .vbool false => "False"
  | .vnull => "None"
  | .vstrlist _ => ""
  | .vatom _ => ""

/-! ## `parser_llm.py`: document parser with fallback (never raises) -/

/-- Fallback record of `parse_resume` (source lines 206–219): placeholder
identity fields and the error note in the summary. -/
def fallbackResume (e : String) : Doc :=
  [("name", vs "Unknown"), ("email", Val.vnull), ("contact", vs ""), ("location", vs ""),
   ("designation", vs ""), ("experience", vs ""), ("education", vs ""),
   ("skills", Val.vstrlist []), ("certifications", Val.vstrlist []),
   ("projects", Val.vstrlist []), ("key_achievements", Val.vstrlist []),
   ("professional_summary", vs ("Error parsing resume: " ++ e))]

/-- `parse_resume`: the whole body (LLM call, JSON decode, cleaning) sits in
one `try`; its outcome is the oracle argument.  On any internal failure the
fallback record is returned — the function itself never raises. -/
def parse_resume (attempt : Except String Doc) : Doc :=
  match attempt with
  | .ok cleaned => cleaned
  | .error e => fallbackResume e

/-- Fallback record of `parse_job_description` (source lines 310–321). -/
def fallbackJD (e : String) : Doc :=
  [("job_title", vs "Untitled Position"), ("company", vs ""), ("location", vs ""),
   ("job_type", vs ""), ("experience_required", vs ""),
   ("required_skills", Val.vstrlist []), ("preferred_skills", Val.vstrlist []),
   ("responsibilities", Val.vstrlist []), ("qualifications", Val.vstrlist []),
   ("description", vs ("Error parsing JD: " ++ e))]

/-- `parse_job_description`, with the same try/except-fallback shape. -/
def parse_job_description (attempt : Except String Doc) : Doc :=
  match attempt with
  | .ok parsed => parsed
  | .error e => fallbackJD e

/-! ## Database state -/

/-- The document store: the three collections plus the GridFS blob ids. -/
structure DB where
  candidates : List Doc
  job_descriptions : List Doc
  top_scores : List Doc
  gridfs : List String
deriving DecidableEq

/-- Fresh `uuid.uuid4()` strings, modelled by a counter. -/
def uuidStr (n : Nat) : String := "uuid-" ++ toString n

/-- Fresh GridFS ObjectIds, modelled by the same counter. -/
def objIdStr (n : Nat) : String := "oid-" ++ toString n

/-! ## Match aggregation (`matching.py` lines 133–170, `job_descriptions.py`
lines 172–200) -/

/-- `score.get(k, 0)` used as a number: default 0 when missing, numeric and
boolean values are Python numbers, anything else raises `TypeError` when
multiplied by a float. -/
def getScoreNum (score : Doc) (k : String) : Option ℚ :=
  match dget score k with
  | none => some 0
  | some (.vnum q) => some q
  | some (.vbool b) => some (if b then 1 else 0)
  | some _ => none

/-- The weighted composite (source comment: Skills 50%, Experience 30%,
Education 15%, Certs 5%); `none` models a `TypeError` on a non-numeric
category value. -/
def computeTotal (score : Doc) : Option ℚ := do
  let sk ← getScoreNum score "skills_score"
  let ex ← getScoreNum score "experience_score"
  let ed ← getScoreNum score "education_score"
  let ce ← getScoreNum score "certifications_score"
  pure (sk * 0.50 + ex * 0.30 + ed * 0.15 + ce * 0.05)

/-- The `score_data` dict literal common to both aggregation paths: the five
explicit fields in order, then `**score` spread, then `"uid"` assigned last. -/
def score_data_doc (score_id jd_id : String) (cand_v created_at : Val) (total : ℚ)
    (score : Doc) (uid : String) : Doc :=
  dset (dictExtend
    [("score_id", vs score_id), ("jd_id", vs jd_id), ("candidate_id", cand_v),
     ("created_at", created_at), ("total_score", Val.vnum total)] score) "uid" (vs uid)

/-- One element of the list returned by the scoring engine: a JSON dict or
some other JSON value (the loop skips non-dict entries). -/
inductive JItem where
  | jdict (d : Doc)
  | jother (v : Val)
deriving DecidableEq

/-- The upsert filter of the `/match` loop: `{"jd_id": .., "candidate_id": ..}`
(no `uid`). -/
def pairFilter (jd_id : String) (cand_v : Val) : Filter :=
  [("jd_id", Cond.ceq (vs jd_id)), ("candidate_id", Cond.ceq cand_v)]

/-- One iteration of the `/match` score-storing loop (`matching.py`
lines 133–170): skip non-dicts and error entries, recompute the weighted
total, build `score_data` and upsert it keyed by (jd_id, candidate_id).
`PyErr` models the unhandled `TypeError`/`KeyError` paths. -/
def storeScoreMatch (jd_id uid score_id : String) (created_at : Val) (item : JItem)
    (ts : List Doc) : Except PyErr (List Doc) :=
  match item with
  | .jother _ => .ok ts
  | .jdict score =>
    if hasKey score "error" then .ok ts
    else match computeTotal score with
      | none => .error .typeError
      | some total =>
        match dget score "candidate_id" with
        | none => .error (.keyError "candidate_id")
        | some cand_v =>
          .ok (updateOneSet (pairFilter jd_id cand_v)
                (score_data_doc score_id jd_id cand_v created_at total score uid) ts)

/-- One iteration of the job-upload fan-out score-storing loop
(`job_descriptions.py` lines 172–200): identical construction of
`score_data`, but stored with a plain `insert_one`, not an upsert. -/
def storeScoreFanout (jd_id uid score_id : String) (created_at : Val) (item : JItem)
    (ts : List Doc) : Except PyErr (List Doc) :=
  match item with
  | .jother _ => .ok ts
  | .jdict score =>
    if hasKey score "error" then .ok ts
    else match computeTotal score with
      | none => .error .typeError
      | some total =>
        match dget score "candidate_id" with
        | none => .error (.keyError "candidate_id")
        | some cand_v =>
          .ok (insertOne ts (score_data_doc score_id jd_id cand_v created_at total score uid))

/-- The `/match` loop over all returned scores, threading the fresh-uuid
counter; the first unhandled exception aborts the request. -/
def storeScoresMatchLoop (jd_id uid : String) (created_at : Val) :
    List JItem → List Doc → Nat → Except PyErr (List Doc × Nat)
  | [], ts, n => .ok (ts, n)
  | item :: rest, ts, n =>
    match storeScoreMatch jd_id uid (uuidStr n) created_at item ts with
    | .error e => .error e
    | .ok ts' => storeScoresMatchLoop jd_id uid created_at rest ts' (n + 1)

/-- The fan-out loop over all returned scores. -/
def storeScoresFanoutLoop (jd_id uid : String) (created_at : Val) :
    List JItem → List Doc → Nat → Except PyErr (List Doc × Nat)
  | [], ts, n => .ok (ts, n)
  | item :: rest, ts, n =>
    match storeScoreFanout jd_id uid (uuidStr n) created_at item ts with
    | .error e => .error e
    | .ok ts' => storeScoresFanoutLoop jd_id uid created_at rest ts' (n + 1)

/-! ## `get_top_matches` (`matching.py` lines 14–57) -/

/-- Composite score of a stored match document (always present and numeric on
documents written by the aggregation; 0 as the reading of anything else). -/
def scoreOf (d : Doc) : ℚ :=
  match dget d "total_score" with
  | some (.vnum q) => q
  | _ => 0

/-- Comparator for Mongo's `.sort("total_score", -1)`: descending by
composite score. -/
def scoreDescLe (a b : Doc) : Bool := decide (scoreOf b ≤ scoreOf a)

/-- Ordered insertion for the sort below. -/
def insertDesc (d : Doc) : List Doc → List Doc
  | [] => [d]
  | e :: es => if scoreDescLe d e then d :: e :: es else e :: insertDesc d es

/-- Mongo's `.sort("total_score", -1)` as an executable sort (insertion sort,
descending by composite score). -/
def sortDesc : List Doc → List Doc
  | [] => []
  | d :: ds => insertDesc d (sortDesc ds)

/-- `GET /api/top-matches/{jd_id}`: 404 unless the job exists and belongs to
the caller; otherwise the stored scores of that job and caller with
`total_score ≥ min_score`, sorted descending, truncated to `limit`. -/
def get_top_matches (jd_id : String) (min_score : ℚ) (limit : Nat) (uid : String)
    (db : DB) : Except Nat (List Doc) :=
  match findOne db.job_descriptions
      [("jd_id", Cond.ceq (vs jd_id)), ("uid", Cond.ceq (vs uid))] with
  | none => .error 404
  | some _ =>
    let query : Filter :=
      [("jd_id", Cond.ceq (vs jd_id)), ("uid", Cond.ceq (vs uid)),
       ("total_score", Cond.cgte min_score)]
    .ok ((sortDesc (findAll db.top_scores query)).take limit)

/-- The per-candidate summary sent to the scoring engine (`matching.py`
lines 89–97): `c["candidate_id"]` raises `KeyError` when absent, the other
fields read with defaults. -/
def resumeOf (c : Doc) : Except PyErr Doc :=
  match dget c "candidate_id" with
  | none => .error (.keyError "candidate_id")
  | some cid =>
    .ok [("candidate_id", cid), ("name", getD c "name" (vs "Unknown")),
         ("email", getD c "email" (vs "")), ("skills", getD c "skills" (Val.vstrlist [])),
         ("experience", getD c "experience" (vs "")),
         ("education", getD c "education" (Val.vstrlist [])),
         ("certifications", getD c "certifications" (Val.vstrlist []))]

/-- All candidate summaries, failing on the first `KeyError`. -/
def resumesOf (cs : List Doc) : Except PyErr (List Doc) := cs.mapM resumeOf

/-- The job text composed for the `/match` scoring call (`matching.py`
lines 100–106).  Only its dependence on the job document matters: it is fed
solely to the black-box scorer. -/
def jdTextOf (jd : Doc) : String :=
  "\n    Job Title: " ++ strOfVal (getD jd "job_title" (vs "")) ++
  "\n    Required Skills: " ++
    (match getD jd "required_skills" (Val.vstrlist []) with
     | .vstrlist l => String.intercalate ", " l
     | _ => "") ++
  "\n    Experience: " ++ strOfVal (getD jd "experience_required" (vs "")) ++
  "\n    Education: " ++ strOfVal (getD jd "education_requirements" (vs "")) ++
  "\n    Description: " ++ strOfVal (getD jd "description" (vs "")) ++ "\n    "

/-- First-item error check of the scorer response (`matching.py`
lines 124–130). -/
def headHasError (scores : List JItem) : Bool :=
  match scores.head? with
  | some (.jdict d) => hasKey d "error"
  | _ => false

/-- `POST /api/match` (`match_candidates`): 404 when the job or all requested
candidates are missing for this caller, 500 when the scorer fails as a whole
or the storing loop raises; otherwise upsert every returned score.  The
scorer is the black-box oracle; `Except Nat` carries the HTTP status. -/
def match_candidates (scorer : String → List Doc → List JItem)
    (jd_id : String) (candidate_ids : Option (List String)) (uid : String)
    (db : DB) (seed : Nat) (created_at : Val) : Except Nat (DB × Nat) :=
  match findOne db.job_descriptions
      [("jd_id", Cond.ceq (vs jd_id)), ("uid", Cond.ceq (vs uid))] with
  | none => .error 404
  | some jd =>
    let query : Filter :=
      ("uid", Cond.ceq (vs uid)) ::
      (match candidate_ids with
       | some (ids@(_ :: _)) => [("candidate_id", Cond.cinStr ids)]
       | _ => [])
    let cands := findAll db.candidates query
    if cands.isEmpty then .error 404
    else
      match resumesOf cands with
      | .error _ => .error 500
      | .ok resumes =>
        let scores := scorer (jdTextOf jd) resumes
        if scores.isEmpty then .error 500
        else if headHasError scores then .error 500
        else
          match storeScoresMatchLoop jd_id uid created_at scores db.top_scores seed with
          | .error _ => .error 500
          | .ok (ts', seed') => .ok ({ db with top_scores := ts' }, seed')

/-! ## Candidate upload (`candidates.py` lines 24–133) -/

/-- An uploaded file: declared name and raw bytes. -/
structure UFile where
  filename : String
  content : List Nat
deriving DecidableEq

/-- `is_supported_file` of `utils/file_extractor.py`. -/
def is_supported_file (filename : String) : Bool :=
  let f := filename.toLower
  [".pdf", ".docx", ".txt", ".jpg", ".jpeg", ".png", ".bmp", ".tiff"].any (f.endsWith ·)

/-- Why a file aborts the batch (each of these is raised inside the per-file
`try` and re-raised by `except Exception` as the batch-level HTTP 500
`"Error processing {filename}: ..."`). -/
inductive FailKind where
  | unsupportedFormat
  | insufficientText
  | extractionError (msg : String)
  | scoringError (e : PyErr)
deriving DecidableEq

/-- A recorded skip: filename and reason (kept in `skipped_files`). -/
structure Skip where
  filename : String
  reason : String
deriving DecidableEq

/-- Accumulated state of an upload batch. -/
structure UploadSt where
  db : DB
  created : List Doc
  skipped : List Skip
  seed : Nat
deriving DecidableEq

/-- Black-box oracles of the candidate upload: the text extractor
(`extract_text_from_upload`, which may raise) and the outcome of the LLM
parse attempt inside `parse_resume`'s `try` block, keyed by the text. -/
structure CandEnv where
  extractText : UFile → Except String String
  parseAttempt : String → Except String Doc
  now : Val

/-- Persisting one accepted candidate (source lines 102–122): store the blob,
build `candidate_data` (the explicit fields, then `**parsed_data`), insert it
and append it to the response list. -/
def persistCandidate (env : CandEnv) (uid : String) (st : UploadSt) (f : UFile)
    (file_hash : String) (parsed : Doc) : UploadSt :=
  let file_id := objIdStr st.seed
  let cand_id := uuidStr (st.seed + 1)
  let candidate_data := dictExtend
    [("candidate_id", vs cand_id), ("uid", vs uid), ("file_id", vs file_id),
     ("file_hash", vs file_hash), ("resume_filename", vs f.filename),
     ("uploaded_at", env.now)] parsed
  let withId := dset candidate_data "_id" (vs (objIdStr (st.seed + 2)))
  { st with
    db := { st.db with
            candidates := insertOne st.db.candidates withId,
            gridfs := st.db.gridfs ++ [file_id] },
    created := st.created ++ [withId],
    seed := st.seed + 3 }

/-- The duplicate-by-email check and persist tail of the candidate loop
(source lines 87–122). -/
def emailCheck (env : CandEnv) (uid : String) (st : UploadSt) (f : UFile)
    (file_hash : String) (parsed : Doc) : Sum (String × FailKind) UploadSt :=
  match dget parsed "email" with
  | some ev =>
    if pyTruthy (some ev) then
      match findOne st.db.candidates
          [("uid", Cond.ceq (vs uid)), ("email", Cond.ceq ev)] with
      | some _ =>
        .inr { st with skipped := st.skipped ++
                 [⟨f.filename, "Candidate with email " ++ strOfVal ev ++
                    " already exists"⟩] }
      | none => .inr (persistCandidate env uid st f file_hash parsed)
    else .inr (persistCandidate env uid st f file_hash parsed)
  | none => .inr (persistCandidate env uid st f file_hash parsed)

/-- The minimum-length gate and parse of the candidate loop
(source lines 74–85). -/
def afterCandText (env : CandEnv) (uid : String) (st : UploadSt) (f : UFile)
    (file_hash : String) (resume_text : String) : Sum (String × FailKind) UploadSt :=
  if resume_text == "" || resume_text.trim.length < 50 then
    .inl (f.filename, .insufficientText)
  else emailCheck env uid st f file_hash (parse_resume (env.parseAttempt resume_text))

/-- The extraction step of the candidate loop (source lines 68–72). -/
def afterCandDup (env : CandEnv) (uid : String) (st : UploadSt) (f : UFile)
    (file_hash : String) : Sum (String × FailKind) UploadSt :=
  match env.extractText f with
  | .error e => .inl (f.filename, .extractionError e)
  | .ok resume_text => afterCandText env uid st f file_hash resume_text

/-- Processing of one file of a candidate batch (source lines 39–125), in
source order: unsupported type aborts; duplicate content hash skips;
extraction failure or short text aborts; the parse never fails (fallback);
duplicate non-empty email skips; otherwise the candidate is persisted. -/
def processCandidateFile (env : CandEnv) (uid : String) (st : UploadSt) (f : UFile) :
    Sum (String × FailKind) UploadSt :=
  if !(is_supported_file f.filename) then .inl (f.filename, .unsupportedFormat)
  else
    let file_hash := generate_file_hash f.content
    match findOne st.db.candidates
        [("uid", Cond.ceq (vs uid)), ("file_hash", Cond.ceq (vs file_hash))] with
    | some _ =>
      .inr { st with skipped := st.skipped ++
               [⟨f.filename, "Duplicate file - same content already uploaded"⟩] }
    | none => afterCandDup env uid st f file_hash

/-- The per-file batch loop shared by both upload endpoints: the first
per-file exception aborts the batch (the deliberate fail-fast of the source);
work committed for earlier files stays committed. -/
def runBatch (step : UploadSt → UFile → Sum (String × FailKind) UploadSt) :
    List UFile → UploadSt → UploadSt × Option (String × FailKind)
  | [], st => (st, none)
  | f :: fs, st =>
    match step st f with
    | .inl err => (st, some err)
    | .inr st' => runBatch step fs st'

/-- The candidate batch loop. -/
def runCandidateBatch (env : CandEnv) (uid : String) :
    List UFile → UploadSt → UploadSt × Option (String × FailKind) :=
  runBatch (processCandidateFile env uid)

/-- `POST /api/candidates/upload`: the HTTP response is the created records
on success, or the batch-aborting error; `skipped_files` is only logged. -/
def upload_candidates (env : CandEnv) (uid : String) (files : List UFile)
    (db : DB) (seed : Nat) : Except (String × FailKind) (List Doc) :=
  match runCandidateBatch env uid files ⟨db, [], [], seed⟩ with
  | (_, some err) => .error err
  | (st, none) => .ok st.created

/-! ## Job-description upload with fan-out (`job_descriptions.py`
lines 43–211) -/

/-- Black-box oracles of the JD upload: the inline PDF/DOCX text extraction,
the LLM parse attempt inside `parse_job_description`, and the scoring
engine. -/
structure JDEnv where
  extractText : UFile → Except String String
  parseJDAttempt : String → Except String Doc
  scorer : String → List Doc → List JItem
  now : Val

/-- The fan-out section after a JD is persisted (source lines 134–200):
score all of the caller's candidates, tolerate a failed scorer response by
storing nothing, and insert each valid score record. -/
def fanoutScores (env : JDEnv) (uid jd_id : String) (jd_text : String) (st : UploadSt) :
    Sum PyErr UploadSt :=
  let cands := findAll st.db.candidates [("uid", Cond.ceq (vs uid))]
  if cands.isEmpty then .inr st
  else
    match resumesOf cands with
    | .error e => .inl e
    | .ok resumes =>
      let scores0 := env.scorer jd_text resumes
      let scores := if scores0.isEmpty then [] else if headHasError scores0 then [] else scores0
      match storeScoresFanoutLoop jd_id uid env.now scores st.db.top_scores st.seed with
      | .error e => .inl e
      | .ok (ts', seed') =>
        .inr { st with db := { st.db with top_scores := ts' }, seed := seed' }

/-- Persisting one accepted JD plus its fan-out (source lines 112–200). -/
def persistJD (env : JDEnv) (uid : String) (st : UploadSt) (f : UFile)
    (file_hash : String) (jd_text : String) (parsed : Doc) :
    Sum (String × FailKind) UploadSt :=
  let file_id := objIdStr st.seed
  let jd_id := uuidStr (st.seed + 1)
  let jd_data := dictExtend
    [("jd_id", vs jd_id), ("uid", vs uid), ("file_id", vs file_id),
     ("file_hash", vs file_hash), ("jd_filename", vs f.filename),
     ("uploaded_at", env.now)] parsed
  let withId := dset jd_data "_id" (vs (objIdStr (st.seed + 2)))
  let st' : UploadSt :=
    { st with
      db := { st.db with
              job_descriptions := insertOne st.db.job_descriptions withId,
              gridfs := st.db.gridfs ++ [file_id] },
      created := st.created ++ [withId],
      seed := st.seed + 3 }
  match fanoutScores env uid jd_id jd_text st' with
  | .inl e => .inl (f.filename, .scoringError e)
  | .inr st'' => .inr st''

/-- The duplicate-(title, company) check and persist tail of the JD loop
(source lines 96–200). -/
def titleCheck (env : JDEnv) (uid : String) (st : UploadSt) (f : UFile)
    (file_hash jd_text : String) (parsed : Doc) : Sum (String × FailKind) UploadSt :=
  if pyTruthy (dget parsed "job_title") && pyTruthy (dget parsed "company") then
    match findOne st.db.job_descriptions
        [("uid", Cond.ceq (vs uid)),
         ("job_title", Cond.ceq (getD parsed "job_title" Val.vnull)),
         ("company", Cond.ceq (getD parsed "company" Val.vnull))] with
    | some _ =>
      .inr { st with skipped := st.skipped ++
               [⟨f.filename, "Job description '" ++
                  strOfVal (getD parsed "job_title" Val.vnull) ++ "' from '" ++
                  strOfVal (getD parsed "company" Val.vnull) ++ "' already exists"⟩] }
    | none => persistJD env uid st f file_hash jd_text parsed
  else persistJD env uid st f file_hash jd_text parsed

/-- The extraction and parse step of the JD loop (source lines 79–94). -/
def afterJDDup (env : JDEnv) (uid : String) (st : UploadSt) (f : UFile)
    (file_hash : String) : Sum (String × FailKind) UploadSt :=
  match env.extractText f with
  | .error e => .inl (f.filename, .extractionError e)
  | .ok jd_text =>
    titleCheck env uid st f file_hash jd_text
      (parse_job_description (env.parseJDAttempt jd_text))

/-- Processing of one file of a JD batch (source lines 57–203), in source
order: the duplicate-content check runs before the extension check; an
unsupported extension or extraction failure aborts; the parse never fails;
a duplicate (title, company) pair skips; otherwise persist and fan out. -/
def processJDFile (env : JDEnv) (uid : String) (st : UploadSt) (f : UFile) :
    Sum (String × FailKind) UploadSt :=
  let file_hash := generate_file_hash f.content
  match findOne st.db.job_descriptions
      [("uid", Cond.ceq (vs uid)), ("file_hash", Cond.ceq (vs file_hash))] with
  | some _ =>
    .inr { st with skipped := st.skipped ++
             [⟨f.filename, "Duplicate file - same content already uploaded"⟩] }
  | none =>
    if f.filename.endsWith ".pdf" || f.filename.endsWith ".docx" then
      afterJDDup env uid st f file_hash
    else .inl (f.filename, .unsupportedFormat)

/-- The JD batch loop, fail-fast like the candidate one. -/
def runJDBatch (env : JDEnv) (uid : String) :
    List UFile → UploadSt → UploadSt × Option (String × FailKind) :=
  runBatch (processJDFile env uid)

/-- `POST /api/jds/upload`: the response is the created JDs only; skips are
logged server-side (source lines 205–211). -/
def upload_job_descriptions (env : JDEnv) (uid : String) (files : List UFile)
    (db : DB) (seed : Nat) : Except (String × FailKind) (List Doc) :=
  match runJDBatch env uid files ⟨db, [], [], seed⟩ with
  | (_, some err) => .error err
  | (st, none) => .ok st.created

/-! ## Download endpoints (`candidates.py` lines 232–281,
`job_descriptions.py` lines 278–327) -/

/-- `GET /api/candidates/download/{candidate_id}`: the lookup filter is
`{"candidate_id": candidate_id}` — exactly as in the source, with no `uid`
condition.  Success streams the stored file of the found record (modelled by
returning that record); GridFS failures are 500. -/
def download_candidate_resume (candidate_id uid : String) (db : DB) : Except Nat Doc :=
  match findOne db.candidates [("candidate_id", Cond.ceq (vs candidate_id))] with
  | none => .error 404
  | some c =>
    match dget c "file_id" with
    | some (.vstr fid) => if db.gridfs.contains fid then .ok c else .error 500
    | _ => .error 500

/-- `GET /api/jds/download/{jd_id}`: lookup filter `{"jd_id": jd_id}`, again
with no `uid` condition. -/
def download_job_description (jd_id uid : String) (db : DB) : Except Nat Doc :=
  match findOne db.job_descriptions [("jd_id", Cond.ceq (vs jd_id))] with
  | none => .error 404
  | some jd =>
    match dget jd "file_id" with
    | some (.vstr fid) => if db.gridfs.contains fid then .ok jd else .error 500
    | _ => .error 500

/-! ## Dictionary-semantics lemmas -/

theorem dget_dset_self (d : Doc) (k : String) (v : Val) : dget (dset d k v) k = some v := by
  induction d with
  | nil => simp [dset, dget]
  | cons p d ih =>
    by_cases h : p.1 = k
    · simp [dset, dget, h]
    · simp [dset, dget, h, ih]

theorem dget_dset_ne (d : Doc) {k' k : String} (v : Val) (h : k' ≠ k) :
    dget (dset d k' v) k = dget d k := by
  induction d with
  | nil => simp [dset, dget, h]
  | cons p d ih =>
    by_cases hp : p.1 = k'
    · simp [dset, dget, hp, h]
    · simp [dset, dget, hp, ih]

theorem keys_cons (p : String × Val) (d : Doc) : keys (p :: d) = p.1 :: keys d := rfl

theorem keys_dset_mem (d : Doc) (k : String) (v : Val) (h : k ∈ keys d) :
    keys (dset d k v) = keys d := by
  induction d with
  | nil => simp [keys] at h
  | cons p d ih =>
    by_cases hp : p.1 = k
    · simp [dset, keys_cons, hp]
    · rw [keys_cons, List.mem_cons] at h
      rcases h with h | h
      · exact absurd h.symm hp
      · simp [dset, hp, keys_cons, ih h]

theorem keys_dset_not_mem (d : Doc) (k : String) (v : Val) (h : k ∉ keys d) :
    keys (dset d k v) = keys d ++ [k] := by
  induction d with
  | nil => simp [dset, keys]
  | cons p d ih =>
    rw [keys_cons, List.mem_cons] at h
    push_neg at h
    have h1 : ¬(p.1 = k) := fun hc => h.1 hc.symm
    obtain ⟨k1, v1⟩ := p
    simp only [dset, h1, if_false, keys_cons, ih h.2]
    rfl

theorem nodupKeys_dset (d : Doc) (k : String) (v : Val) (h : NodupKeys d) :
    NodupKeys (dset d k v) := by
  by_cases hk : k ∈ keys d
  · unfold NodupKeys
    rw [keys_dset_mem d k v hk]
    exact h
  · unfold NodupKeys
    rw [keys_dset_not_mem d k v hk]
    simpa [List.nodup_append] using ⟨h, hk⟩

theorem nodupKeys_dictExtend (d : Doc) (e : Doc) (h : NodupKeys d) :
    NodupKeys (dictExtend d e) := by
  induction e generalizing d with
  | nil => simpa [dictExtend] using h
  | cons p e ih =>
    have : dictExtend d (p :: e) = dictExtend (dset d p.1 p.2) e := by
      simp [dictExtend]
    rw [this]
    exact ih _ (nodupKeys_dset d p.1 p.2 h)

theorem dictExtend_cons (d : Doc) (p : String × Val) (e : Doc) :
    dictExtend d (p :: e) = dictExtend (dset d p.1 p.2) e := by
  simp [dictExtend]

theorem dget_eq_none_of_not_mem_keys {d : Doc} {k : String} (h : k ∉ keys d) :
    dget d k = none := by
  induction d with
  | nil => simp [dget]
  | cons p d ih =>
    rw [keys_cons, List.mem_cons] at h
    push_neg at h
    have h1 : ¬(p.1 = k) := fun hc => h.1 hc.symm
    simp [dget, h1, ih h.2]

theorem not_mem_keys_of_dget_eq_none {d : Doc} {k : String} (h : dget d k = none) :
    k ∉ keys d := by
  induction d with
  | nil => simp [keys]
  | cons p d ih =>
    by_cases hp : p.1 = k
    · simp [dget, hp] at h
    · simp [dget, hp] at h
      rw [keys_cons, List.mem_cons]
      push_neg
      exact ⟨fun hc => hp hc.symm, ih h⟩

theorem dget_dictExtend_not_mem (d : Doc) (e : Doc) (k : String) (h : k ∉ keys e) :
    dget (dictExtend d e) k = dget d k := by
  induction e generalizing d with
  | nil => simp [dictExtend]
  | cons p e ih =>
    rw [keys_cons, List.mem_cons] at h
    push_neg at h
    have h1 : p.1 ≠ k := fun hc => h.1 hc.symm
    rw [dictExtend_cons, ih _ h.2, dget_dset_ne _ _ h1]

theorem nodupKeys_cons {p : String × Val} {e : Doc} (h : NodupKeys (p :: e)) :
    p.1 ∉ keys e ∧ NodupKeys e := by
  unfold NodupKeys at h ⊢
  rw [keys_cons, List.nodup_cons] at h
  exact h

theorem dget_dictExtend_of_dget {e : Doc} {k : String} {v : Val} (d : Doc)
    (hnd : NodupKeys e) (h : dget e k = some v) :
    dget (dictExtend d e) k = some v := by
  induction e generalizing d with
  | nil => simp [dget] at h
  | cons p e ih =>
    rw [dictExtend_cons]
    by_cases hp : p.1 = k
    · simp [dget, hp] at h
      have hni : k ∉ keys e := hp ▸ (nodupKeys_cons hnd).1
      rw [dget_dictExtend_not_mem _ _ _ hni, ← hp, ← h]
      exact dget_dset_self d p.1 p.2
    · simp [dget, hp] at h
      exact ih _ (nodupKeys_cons hnd).2 h

/-! ## Sorting lemmas -/

theorem mem_insertDesc {x d : Doc} {l : List Doc} :
    x ∈ insertDesc d l ↔ x = d ∨ x ∈ l := by
  induction l with
  | nil => simp [insertDesc]
  | cons e es ih =>
    by_cases h : scoreDescLe d e
    · simp [insertDesc, h]
    · simp [insertDesc, h, ih]
      tauto

theorem mem_sortDesc {x : Doc} {l : List Doc} : x ∈ sortDesc l ↔ x ∈ l := by
  induction l with
  | nil => simp [sortDesc]
  | cons d ds ih => simp [sortDesc, mem_insertDesc, ih]

theorem pairwise_insertDesc {d : Doc} {l : List Doc}
    (h : l.Pairwise (fun a b => scoreOf b ≤ scoreOf a)) :
    (insertDesc d l).Pairwise (fun a b => scoreOf b ≤ scoreOf a) := by
  induction l with
  | nil => simp [insertDesc]
  | cons e es ih =>
    rcases List.pairwise_cons.mp h with ⟨he, hes⟩
    by_cases hd : scoreDescLe d e = true
    · have hde : scoreOf e ≤ scoreOf d := of_decide_eq_true hd
      have hrw : insertDesc d (e :: es) = d :: e :: es := by
        simp [insertDesc, hd]
      rw [hrw]
      refine List.pairwise_cons.mpr ⟨?_, h⟩
      intro x hx
      rcases List.mem_cons.mp hx with rfl | hx
      · exact hde
      · exact le_trans (he x hx) hde
    · have hed : scoreOf d ≤ scoreOf e := by
        have hns : ¬(scoreOf e ≤ scoreOf d) := by
          intro hc
          exact hd (by simp [scoreDescLe, hc])
        exact le_of_not_le hns
      have hrw : insertDesc d (e :: es) = e :: insertDesc d es := by
        simp [insertDesc, hd]
      rw [hrw]
      refine List.pairwise_cons.mpr ⟨?_, ih hes⟩
      intro x hx
      rcases mem_insertDesc.mp hx with rfl | hx
      · exact hed
      · exact he x hx

theorem sorted_sortDesc (l : List Doc) :
    (sortDesc l).Pairwise (fun a b => scoreOf b ≤ scoreOf a) := by
  induction l with
  | nil => simp [sortDesc]
  | cons d ds ih => exact pairwise_insertDesc ih

/-! ## Upsert lemmas -/

theorem mem_updateOneSet {d' : Doc} {flt : Filter} {data : Doc} {ts : List Doc}
    (h : d' ∈ updateOneSet flt data ts) :
    d' ∈ ts ∨ ∃ d0, d' = dictExtend d0 data := by
  induction ts with
  | nil =>
    simp [updateOneSet] at h
    exact Or.inr ⟨docOfFilter flt, h⟩
  | cons e es ih =>
    by_cases he : matchesFilter flt e
    · simp [updateOneSet, he] at h
      rcases h with h | h
      · exact Or.inr ⟨e, h⟩
      · exact Or.inl (List.mem_cons_of_mem _ h)
    · simp [updateOneSet, he] at h
      rcases h with h | h
      · exact Or.inl (by simp [h])
      · rcases ih h with h' | h'
        · exact Or.inl (List.mem_cons_of_mem _ h')
        · exact Or.inr h'

theorem length_updateOneSet_of_found {flt : Filter} {data : Doc} {ts : List Doc}
    (h : ∃ d ∈ ts, matchesFilter flt d = true) :
    (updateOneSet flt data ts).length = ts.length := by
  induction ts with
  | nil => simp at h
  | cons e es ih =>
    by_cases he : matchesFilter flt e
    · simp [updateOneSet, he]
    · rcases h with ⟨d, hd, hm⟩
      rcases List.mem_cons.mp hd with rfl | hd
      · exact absurd hm he
      · simp [updateOneSet, he, ih ⟨d, hd, hm⟩]

/-! ## Fields of `score_data` -/

theorem dget_score_data_uid (score_id jd_id : String) (cand_v created_at : Val)
    (total : ℚ) (score : Doc) (uid : String) :
    dget (score_data_doc score_id jd_id cand_v created_at total score uid) "uid" =
      some (vs uid) := by
  unfold score_data_doc
  exact dget_dset_self _ _ _

theorem nodupKeys_score_data (score_id jd_id : String) (cand_v created_at : Val)
    (total : ℚ) (score : Doc) (uid : String) :
    NodupKeys (score_data_doc score_id jd_id cand_v created_at total score uid) := by
  unfold score_data_doc
  refine nodupKeys_dset _ _ _ (nodupKeys_dictExtend _ _ ?_)
  simp [NodupKeys, keys]

theorem dget_score_data_jd (score_id jd_id : String) (cand_v created_at : Val)
    (total : ℚ) {score : Doc} (uid : String) (hnd : NodupKeys score)
    (hj : dget score "jd_id" = none ∨ dget score "jd_id" = some (vs jd_id)) :
    dget (score_data_doc score_id jd_id cand_v created_at total score uid) "jd_id" =
      some (vs jd_id) := by
  unfold score_data_doc
  rw [dget_dset_ne _ _ (by decide)]
  rcases hj with hj | hj
  · rw [dget_dictExtend_not_mem _ _ _ (not_mem_keys_of_dget_eq_none hj)]
    simp [dget]
  · exact dget_dictExtend_of_dget _ hnd hj

theorem dget_score_data_cand (score_id jd_id : String) (cand_v created_at : Val)
    (total : ℚ) {score : Doc} (uid : String) (hnd : NodupKeys score)
    (hc : dget score "candidate_id" = some cand_v) :
    dget (score_data_doc score_id jd_id cand_v created_at total score uid) "candidate_id" =
      some cand_v := by
  unfold score_data_doc
  rw [dget_dset_ne _ _ (by decide)]
  exact dget_dictExtend_of_dget _ hnd hc

/-! ## Pair-count lemmas for the upsert -/

theorem matches_pair_iff {d : Doc} {jd : String} {cv : Val}
    (hj : dget d "jd_id" = some (vs jd)) (hc : dget d "candidate_id" = some cv)
    {p : String} {q : Val} :
    matchesFilter (pairFilter p q) d = true ↔ (jd = p ∧ cv = q) := by
  simp [matchesFilter, pairFilter, condMatches, hj, hc, vs]

theorem dget_of_matches_pair {d : Doc} {jd : String} {cv : Val}
    (h : matchesFilter (pairFilter jd cv) d = true) :
    dget d "jd_id" = some (vs jd) ∧ dget d "candidate_id" = some cv := by
  simp only [matchesFilter, pairFilter, List.all_cons, List.all_nil, Bool.and_true,
    Bool.and_eq_true] at h
  obtain ⟨h1, h2⟩ := h
  constructor
  · unfold condMatches at h1
    cases hj : dget d "jd_id" with
    | none => rw [hj] at h1; exact absurd h1 (by simp)
    | some w =>
      rw [hj] at h1
      simp at h1
      rw [h1]
  · unfold condMatches at h2
    cases hc : dget d "candidate_id" with
    | none => rw [hc] at h2; exact absurd h2 (by simp)
    | some w =>
      rw [hc] at h2
      simp at h2
      rw [h2]

theorem countDocs_nil (flt : Filter) : countDocs [] flt = 0 := rfl

theorem countDocs_cons (d : Doc) (ts : List Doc) (flt : Filter) :
    countDocs (d :: ts) flt =
      (if matchesFilter flt d = true then 1 else 0) + countDocs ts flt := by
  by_cases h : matchesFilter flt d = true
  · simp [countDocs, findAll, List.filter_cons, h, Nat.add_comm]
  · simp [countDocs, findAll, List.filter_cons, h]

theorem countDocs_updateOneSet_other {data : Doc} {jd : String} {cv : Val}
    (hdj : dget data "jd_id" = some (vs jd))
    (hdc : dget data "candidate_id" = some cv) (hdn : NodupKeys data)
    {p : String} {q : Val} (hne : ¬(jd = p ∧ cv = q)) (ts : List Doc) :
    countDocs (updateOneSet (pairFilter jd cv) data ts) (pairFilter p q) =
      countDocs ts (pairFilter p q) := by
  have hext : ∀ d0 : Doc, matchesFilter (pairFilter p q) (dictExtend d0 data) ≠ true := by
    intro d0 hc
    exact hne ((matches_pair_iff (dget_dictExtend_of_dget d0 hdn hdj)
      (dget_dictExtend_of_dget d0 hdn hdc)).mp hc)
  induction ts with
  | nil =>
    simp only [updateOneSet, countDocs_nil]
    rw [countDocs_cons, countDocs_nil, if_neg (hext _)]
  | cons e es ih =>
    by_cases he : matchesFilter (pairFilter jd cv) e = true
    · have ⟨hej, hec⟩ := dget_of_matches_pair he
      have hepq : matchesFilter (pairFilter p q) e ≠ true := by
        intro hc
        exact hne ((matches_pair_iff hej hec).mp hc)
      simp only [updateOneSet, if_pos he]
      rw [countDocs_cons, countDocs_cons, if_neg (hext _), if_neg hepq]
    · simp only [updateOneSet, if_neg he]
      rw [countDocs_cons, countDocs_cons, ih]

theorem countDocs_updateOneSet_self {data : Doc} {jd : String} {cv : Val}
    (hdj : dget data "jd_id" = some (vs jd))
    (hdc : dget data "candidate_id" = some cv) (hdn : NodupKeys data)
    {ts : List Doc} (hle : countDocs ts (pairFilter jd cv) ≤ 1) :
    countDocs (updateOneSet (pairFilter jd cv) data ts) (pairFilter jd cv) = 1 := by
  have hext : ∀ d0 : Doc, matchesFilter (pairFilter jd cv) (dictExtend d0 data) = true := by
    intro d0
    exact (matches_pair_iff (dget_dictExtend_of_dget d0 hdn hdj)
      (dget_dictExtend_of_dget d0 hdn hdc)).mpr ⟨rfl, rfl⟩
  induction ts with
  | nil =>
    simp only [updateOneSet, countDocs_nil]
    rw [countDocs_cons, countDocs_nil, if_pos (hext _)]
  | cons e es ih =>
    by_cases he : matchesFilter (pairFilter jd cv) e = true
    · have hes : countDocs es (pairFilter jd cv) = 0 := by
        rw [countDocs_cons, if_pos he] at hle
        omega
      simp only [updateOneSet, if_pos he]
      rw [countDocs_cons, if_pos (hext _), hes]
    · have hle' : countDocs es (pairFilter jd cv) ≤ 1 := by
        rw [countDocs_cons, if_neg he] at hle
        omega
      simp only [updateOneSet, if_neg he]
      rw [countDocs_cons, if_neg he, ih hle']

theorem countDocs_updateOneSet_le {data : Doc} {jd : String} {cv : Val}
    (hdj : dget data "jd_id" = some (vs jd))
    (hdc : dget data "candidate_id" = some cv) (hdn : NodupKeys data)
    {ts : List Doc} (H : ∀ p q, countDocs ts (pairFilter p q) ≤ 1) :
    ∀ p q, countDocs (updateOneSet (pairFilter jd cv) data ts) (pairFilter p q) ≤ 1 := by
  intro p q
  by_cases hpq : jd = p ∧ cv = q
  · obtain ⟨rfl, rfl⟩ := hpq
    rw [countDocs_updateOneSet_self hdj hdc hdn (H jd cv)]
  · rw [countDocs_updateOneSet_other hdj hdc hdn hpq]
    exact H p q

/-! ## Claim C1 -/

/-- A scorer output record that itself carries a `total_score` field. -/
def C1score : Doc :=
  [("candidate_id", vs "c1"), ("skills_score", Val.vnum 90), ("experience_score", Val.vnum 85),
   ("education_score", Val.vnum 80), ("certifications_score", Val.vnum 70),
   ("total_score", Val.vnum 999)]

/-- Claim C1 (code bug): the spec's invariant says the stored `total_score`
always equals 0.50·skills + 0.30·experience + 0.15·education +
0.05·certifications and is never trusted from the external scorer; but in both
aggregation paths the `**score` spread comes after the computed
`"total_score"` entry in the `score_data` literal, so a `total_score` field in
the scorer output overrides the recomputed value.  At the failing input
(category scores 90/85/80/70 whose weighted composite is 86, with a bogus
`total_score` of 999 in the record) both paths store 999, not 86. -/
theorem C1_total_score_overridden_at_failing_input :
    (storeScoreMatch "j1" "u1" "s1" (vs "t0") (JItem.jdict C1score) []).map
        (fun ts => ts.map (fun d => dget d "total_score")) = .ok [some (Val.vnum 999)] ∧
    (storeScoreFanout "j1" "u1" "s1" (vs "t0") (JItem.jdict C1score) []).map
        (fun ts => ts.map (fun d => dget d "total_score")) = .ok [some (Val.vnum 999)] ∧
    (90 : ℚ) * 0.50 + 85 * 0.30 + 80 * 0.15 + 70 * 0.05 = 86 ∧
    (999 : ℚ) ≠ 86 := by
  refine ⟨by rfl, by rfl, by norm_num, by norm_num⟩

/-! ## Claim C3 -/

/-- A candidate record owned by user "alice". -/
def aliceCand : Doc :=
  [("candidate_id", vs "c1"), ("uid", vs "alice"), ("file_id", vs "f1"),
   ("resume_filename", vs "r.pdf")]

/-- A job-description record owned by user "alice". -/
def aliceJD : Doc :=
  [("jd_id", vs "j1"), ("uid", vs "alice"), ("file_id", vs "f2"), ("jd_filename", vs "jd.pdf")]

/-- A store holding only alice's records. -/
def crossTenantDB : DB := ⟨[aliceCand], [aliceJD], [], ["f1", "f2"]⟩

/-- Claim C3 (code bug): the spec requires every read to include the caller's
owning-user id in its filter so a record of a different user is never
returned; but both download endpoints look up by id only (no `uid` in the
filter), so the authenticated user "bob" receives alice's candidate resume and
alice's job-description file instead of a 404. -/
theorem C3_download_cross_tenant_leak :
    download_candidate_resume "c1" "bob" crossTenantDB = .ok aliceCand ∧
    download_job_description "j1" "bob" crossTenantDB = .ok aliceJD ∧
    dget aliceCand "uid" = some (vs "alice") ∧
    dget aliceJD "uid" = some (vs "alice") ∧
    "bob" ≠ "alice" := by
  refine ⟨by rfl, by rfl, by decide, by decide, by decide⟩

/-! ## Claim C10 -/

/-- Claim C10 (confirmed): every MatchScore document written by either
aggregation path has `uid` equal to the authenticated caller's identifier,
for every possible scorer output record: the `"uid"` entry is assigned last
in the `score_data` construction, so a `uid` in the scorer response can never
override it.  Stated as: any document of the resulting collection is either an
untouched pre-existing document or carries the caller's uid. -/
theorem C10_uid_always_callers :
    (∀ (jd_id uid score_id : String) (created_at : Val) (item : JItem) (ts ts' : List Doc),
      storeScoreMatch jd_id uid score_id created_at item ts = .ok ts' →
      ∀ d ∈ ts', d ∈ ts ∨ dget d "uid" = some (vs uid)) ∧
    (∀ (jd_id uid score_id : String) (created_at : Val) (item : JItem) (ts ts' : List Doc),
      storeScoreFanout jd_id uid score_id created_at item ts = .ok ts' →
      ∀ d ∈ ts', d ∈ ts ∨ dget d "uid" = some (vs uid)) := by
  constructor
  · intro jd_id uid score_id created_at item ts ts' hok d hd
    cases item with
    | jother v =>
      simp [storeScoreMatch] at hok
      subst hok
      exact Or.inl hd
    | jdict score =>
      by_cases herr : hasKey score "error"
      · simp [storeScoreMatch, herr] at hok
        subst hok
        exact Or.inl hd
      · cases htot : computeTotal score with
        | none => simp [storeScoreMatch, herr, htot] at hok
        | some total =>
          cases hcv : dget score "candidate_id" with
          | none => simp [storeScoreMatch, herr, htot, hcv] at hok
          | some cand_v =>
            simp [storeScoreMatch, herr, htot, hcv] at hok
            subst hok
            rcases mem_updateOneSet hd with h | ⟨d0, rfl⟩
            · exact Or.inl h
            · exact Or.inr (dget_dictExtend_of_dget d0
                (nodupKeys_score_data _ _ _ _ _ _ _) (dget_score_data_uid _ _ _ _ _ _ _))
  · intro jd_id uid score_id created_at item ts ts' hok d hd
    cases item with
    | jother v =>
      simp [storeScoreFanout] at hok
      subst hok
      exact Or.inl hd
    | jdict score =>
      by_cases herr : hasKey score "error"
      · simp [storeScoreFanout, herr] at hok
        subst hok
        exact Or.inl hd
      · cases htot : computeTotal score with
        | none => simp [storeScoreFanout, herr, htot] at hok
        | some total =>
          cases hcv : dget score "candidate_id" with
          | none => simp [storeScoreFanout, herr, htot, hcv] at hok
          | some cand_v =>
            simp [storeScoreFanout, herr, htot, hcv] at hok
            subst hok
            rcases List.mem_append.mp hd with h | h
            · exact Or.inl h
            · rw [List.mem_singleton.mp h]
              exact Or.inr (dget_score_data_uid _ _ _ _ _ _ _)

/-- A scorer output record trying to smuggle in a foreign `uid`. -/
def C10score : Doc := [("candidate_id", vs "c1"), ("uid", vs "intruder")]

/-- The document the `/match` upsert writes for `C10score` on an empty
collection. -/
def C10doc : Doc :=
  [("jd_id", vs "j1"), ("candidate_id", vs "c1"), ("score_id", vs "s1"),
   ("created_at", vs "t0"), ("total_score", Val.vnum 0), ("uid", vs "u1")]

theorem C10_uid_always_callers_witness :
    storeScoreMatch "j1" "u1" "s1" (vs "t0") (JItem.jdict C10score) [] = .ok [C10doc] ∧
    (C10doc ∈ ([] : List Doc) ∨ dget C10doc "uid" = some (vs "u1")) :=
  ⟨by with_unfolding_all decide,
   C10_uid_always_callers.1 "j1" "u1" "s1" (vs "t0") (JItem.jdict C10score) [] [C10doc]
     (by with_unfolding_all decide) C10doc (by decide)⟩

/-! ## Claim C4 -/

/-- Extracting the `$gte` guarantee from a query match. -/
theorem min_le_scoreOf_of_matches {d : Doc} {jd uid : String} {m : ℚ}
    (h : matchesFilter
      [("jd_id", Cond.ceq (vs jd)), ("uid", Cond.ceq (vs uid)),
       ("total_score", Cond.cgte m)] d = true) :
    m ≤ scoreOf d := by
  simp only [matchesFilter, List.all_cons, List.all_nil, Bool.and_true,
    Bool.and_eq_true] at h
  have h3 := h.2.2
  unfold condMatches at h3
  unfold scoreOf
  cases ht : dget d "total_score" with
  | none => rw [ht] at h3; exact absurd h3 (by simp)
  | some v =>
    rw [ht] at h3
    cases v with
    | vnum q => simpa using h3
    | vstr s => exact absurd h3 (by simp)
    | vbool b => exact absurd h3 (by simp)
    | vnull => exact absurd h3 (by simp)
    | vstrlist l => exact absurd h3 (by simp)
    | vatom n => exact absurd h3 (by simp)

/-- Claim C4 (confirmed): the top-matches query 404s when the job is missing
or not owned by the caller; otherwise every returned record's composite is at
least the requested minimum (inclusive), the list is sorted non-increasing by
composite, and it has at most `limit` entries. -/
theorem C4_top_matches_spec (jd_id : String) (min_score : ℚ) (limit : Nat)
    (uid : String) (db : DB) :
    (findOne db.job_descriptions
        [("jd_id", Cond.ceq (vs jd_id)), ("uid", Cond.ceq (vs uid))] = none →
      get_top_matches jd_id min_score limit uid db = .error 404) ∧
    ∀ l, get_top_matches jd_id min_score limit uid db = .ok l →
      (∀ d ∈ l, min_score ≤ scoreOf d) ∧
      l.Pairwise (fun a b => scoreOf b ≤ scoreOf a) ∧
      l.length ≤ limit := by
  constructor
  · intro h
    simp [get_top_matches, h]
  · intro l hl
    unfold get_top_matches at hl
    cases hfo : findOne db.job_descriptions
        [("jd_id", Cond.ceq (vs jd_id)), ("uid", Cond.ceq (vs uid))] with
    | none => rw [hfo] at hl; exact absurd hl (by simp)
    | some jd =>
      rw [hfo] at hl
      simp only [Except.ok.injEq] at hl
      subst hl
      refine ⟨?_, ?_, ?_⟩
      · intro d hd
        have hd1 : d ∈ sortDesc (findAll db.top_scores
            [("jd_id", Cond.ceq (vs jd_id)), ("uid", Cond.ceq (vs uid)),
             ("total_score", Cond.cgte min_score)]) := List.mem_of_mem_take hd
        have hd2 := mem_sortDesc.mp hd1
        exact min_le_scoreOf_of_matches (List.mem_filter.mp hd2).2
      · exact (sorted_sortDesc _).sublist (List.take_sublist _ _)
      · rw [List.length_take]
        exact min_le_left _ _

/-- One stored match of the witness store. -/
def C4doc : Doc :=
  [("jd_id", vs "j1"), ("uid", vs "u1"), ("total_score", Val.vnum 86)]

/-- A below-threshold stored match of the witness store. -/
def C4docLow : Doc :=
  [("jd_id", vs "j1"), ("uid", vs "u1"), ("total_score", Val.vnum (79/2))]

/-- Witness store: one owned job and two stored matches. -/
def C4db : DB :=
  ⟨[], [[("jd_id", vs "j1"), ("uid", vs "u1")]], [C4docLow, C4doc], []⟩

/-! ## Batch-loop step lemmas -/

theorem runBatch_cons_inr {step : UploadSt → UFile → Sum (String × FailKind) UploadSt}
    {st st' : UploadSt} {f : UFile} (h : step st f = .inr st') (fs : List UFile) :
    runBatch step (f :: fs) st = runBatch step fs st' := by
  rw [runBatch, h]

theorem runBatch_cons_inl {step : UploadSt → UFile → Sum (String × FailKind) UploadSt}
    {st : UploadSt} {f : UFile} {e : String × FailKind} (h : step st f = .inl e)
    (fs : List UFile) :
    runBatch step (f :: fs) st = (st, some e) := by
  rw [runBatch, h]

theorem runCandidateBatch_cons_inr {env : CandEnv} {uid : String} {st st' : UploadSt}
    {f : UFile} (h : processCandidateFile env uid st f = .inr st') (fs : List UFile) :
    runCandidateBatch env uid (f :: fs) st = runCandidateBatch env uid fs st' :=
  runBatch_cons_inr h fs

theorem runCandidateBatch_cons_inl {env : CandEnv} {uid : String} {st : UploadSt}
    {f : UFile} {e : String × FailKind} (h : processCandidateFile env uid st f = .inl e)
    (fs : List UFile) :
    runCandidateBatch env uid (f :: fs) st = (st, some e) :=
  runBatch_cons_inl h fs

theorem runJDBatch_cons_inr {env : JDEnv} {uid : String} {st st' : UploadSt}
    {f : UFile} (h : processJDFile env uid st f = .inr st') (fs : List UFile) :
    runJDBatch env uid (f :: fs) st = runJDBatch env uid fs st' :=
  runBatch_cons_inr h fs

theorem runJDBatch_cons_inl {env : JDEnv} {uid : String} {st : UploadSt}
    {f : UFile} {e : String × FailKind} (h : processJDFile env uid st f = .inl e)
    (fs : List UFile) :
    runJDBatch env uid (f :: fs) st = (st, some e) :=
  runBatch_cons_inl h fs

/-! ## Claim C5 -/

/-- A store where user u1 already uploaded the bytes `[1, 2, 3]`. -/
def C5db : DB := ⟨[[("uid", vs "u1"), ("file_hash", vs (generate_file_hash [1, 2, 3]))]], [], [], []⟩

/-- Oracles are irrelevant for the duplicate path. -/
def C5env : CandEnv := ⟨fun _ => .ok "", fun _ => .ok [], vs "t0"⟩

/-- Batch state over `C5db`. -/
def C5st : UploadSt := ⟨C5db, [], [], 0⟩

/-- Claim C5 (counterexample): the claim says a byte-identical re-upload is
skipped with a duplicate-content reason regardless of its filename; but the
candidate path checks the file type before the duplicate check, so the same
bytes re-uploaded under an unsupported extension abort the whole batch with
an unsupported-format error instead of being skipped — while under a
supported extension they are skipped as claimed. -/
theorem C5_rename_to_unsupported_not_skipped :
    processCandidateFile C5env "u1" C5st ⟨"resume.xyz", [1, 2, 3]⟩ =
      .inl ("resume.xyz", FailKind.unsupportedFormat) ∧
    processCandidateFile C5env "u1" C5st ⟨"resume.pdf", [1, 2, 3]⟩ =
      .inr ⟨C5db, [], [⟨"resume.pdf", "Duplicate file - same content already uploaded"⟩], 0⟩ := by
  exact ⟨by with_unfolding_all decide, by with_unfolding_all decide⟩

/-- Claim C5 (amended, proved): a file whose SHA-256 content fingerprint
matches a previously accepted upload of the same user is skipped with the
duplicate-content reason, the skip is recorded, and the batch continues with
the remaining files — on the candidate path whenever the filename has a
supported extension (the type check runs first), and on the JD path for any
filename at all (its duplicate check runs before the extension check). -/
theorem C5_duplicate_content_skipped (cenv : CandEnv) (jenv : JDEnv) (uid : String)
    (st : UploadSt) (f : UFile) :
    (is_supported_file f.filename = true →
      (findOne st.db.candidates [("uid", Cond.ceq (vs uid)),
        ("file_hash", Cond.ceq (vs (generate_file_hash f.content)))]).isSome = true →
      processCandidateFile cenv uid st f = .inr { st with skipped := st.skipped ++
          [⟨f.filename, "Duplicate file - same content already uploaded"⟩] } ∧
      ∀ fs, runCandidateBatch cenv uid (f :: fs) st =
        runCandidateBatch cenv uid fs { st with skipped := st.skipped ++
          [⟨f.filename, "Duplicate file - same content already uploaded"⟩] }) ∧
    ((findOne st.db.job_descriptions [("uid", Cond.ceq (vs uid)),
        ("file_hash", Cond.ceq (vs (generate_file_hash f.content)))]).isSome = true →
      processJDFile jenv uid st f = .inr { st with skipped := st.skipped ++
          [⟨f.filename, "Duplicate file - same content already uploaded"⟩] } ∧
      ∀ fs, runJDBatch jenv uid (f :: fs) st =
        runJDBatch jenv uid fs { st with skipped := st.skipped ++
          [⟨f.filename, "Duplicate file - same content already uploaded"⟩] }) := by
  constructor
  · intro hs hdup
    obtain ⟨d, hd⟩ := Option.isSome_iff_exists.mp hdup
    have hp : processCandidateFile cenv uid st f = .inr { st with skipped := st.skipped ++
        [⟨f.filename, "Duplicate file - same content already uploaded"⟩] } := by
      simp only [processCandidateFile]
      rw [hd, hs]
      rfl
    exact ⟨hp, fun fs => runCandidateBatch_cons_inr hp fs⟩
  · intro hdup
    obtain ⟨d, hd⟩ := Option.isSome_iff_exists.mp hdup
    have hp : processJDFile jenv uid st f = .inr { st with skipped := st.skipped ++
        [⟨f.filename, "Duplicate file - same content already uploaded"⟩] } := by
      simp only [processJDFile]
      rw [hd]
    exact ⟨hp, fun fs => runJDBatch_cons_inr hp fs⟩

/-- A JD store where user u1 already uploaded the bytes `[4, 5]`. -/
def C5jdb : DB := ⟨[], [[("uid", vs "u1"), ("file_hash", vs (generate_file_hash [4, 5]))]], [], []⟩

/-- JD-path oracles for the duplicate witness. -/
def C5jenv : JDEnv := ⟨fun _ => .ok "", fun _ => .ok [], fun _ _ => [], vs "t0"⟩

/-- JD batch state over `C5jdb`. -/
def C5jst : UploadSt := ⟨C5jdb, [], [], 0⟩

theorem C5_duplicate_content_skipped_witness :
    processCandidateFile C5env "u1" C5st ⟨"resume.pdf", [1, 2, 3]⟩ =
      .inr ⟨C5db, [], [⟨"resume.pdf", "Duplicate file - same content already uploaded"⟩], 0⟩ ∧
    runCandidateBatch C5env "u1" [⟨"resume.pdf", [1, 2, 3]⟩] C5st =
      runCandidateBatch C5env "u1" []
        ⟨C5db, [], [⟨"resume.pdf", "Duplicate file - same content already uploaded"⟩], 0⟩ ∧
    processJDFile C5jenv "u1" C5jst ⟨"anything.bin", [4, 5]⟩ =
      .inr ⟨C5jdb, [], [⟨"anything.bin", "Duplicate file - same content already uploaded"⟩], 0⟩ := by
  have h := (C5_duplicate_content_skipped C5env C5jenv "u1" C5st ⟨"resume.pdf", [1, 2, 3]⟩).1
    (by with_unfolding_all decide) (by with_unfolding_all decide)
  have hj := (C5_duplicate_content_skipped C5env C5jenv "u1" C5jst ⟨"anything.bin", [4, 5]⟩).2
    (by with_unfolding_all decide)
  exact ⟨h.1, h.2 [], hj.1⟩

/-! ## Claim C6 -/

/-- Sixty-two characters of extractable text. -/
def C6text : String :=
  "abcdefghijklmnopqrstuvwxyzabcdefghijklmnopqrstuvwxyzabcdefghij"

/-- Extraction oracle: plenty of text for `a.pdf`, eight characters for
anything else; parsing always succeeds. -/
def C6env : CandEnv :=
  ⟨fun f => .ok (if f.filename == "a.pdf" then C6text else "tooshort"),
   fun _ => .ok [("name", vs "N")], vs "t0"⟩

/-- An empty initial batch state. -/
def C6st0 : UploadSt := ⟨⟨[], [], [], []⟩, [], [], 0⟩

/-- The run of a two-file batch whose second file has short text. -/
def C6run : UploadSt × Option (String × FailKind) :=
  runCandidateBatch C6env "u1" [⟨"a.pdf", [1]⟩, ⟨"b.pdf", [2]⟩] C6st0

/-- Claim C6 (counterexample): the claim says a file with under 50 characters
of extracted text is skipped with an "insufficient text" reason and the batch
continues, with already-processed files still returned; in the code the
HTTPException raised for short text is caught by the per-file
`except Exception` and re-raised as a batch-wide 500, so the batch aborts at
`b.pdf`: no skip is recorded and the created record of `a.pdf` (although
committed to the store) is not returned to the caller. -/
theorem C6_short_text_aborts_batch :
    C6run.2 = some ("b.pdf", FailKind.insufficientText) ∧
    countDocs C6run.1.db.candidates [("resume_filename", Cond.ceq (vs "a.pdf"))] = 1 ∧
    C6run.1.skipped = [] ∧
    C6run.1.created.length = 1 := by
  exact ⟨by with_unfolding_all decide, by with_unfolding_all decide,
    by with_unfolding_all decide, by with_unfolding_all decide⟩

/-- Claim C6 (amended, proved): a supported, non-duplicate file whose
extracted text is empty or shorter than 50 characters aborts the entire
candidate batch with an insufficient-text error naming that file; the state
committed for earlier files stays, but the response is the error, not the
processed files. -/
theorem C6_short_text_abort_spec (env : CandEnv) (uid : String) (st : UploadSt)
    (f : UFile) (text : String)
    (hs : is_supported_file f.filename = true)
    (hdup : findOne st.db.candidates [("uid", Cond.ceq (vs uid)),
      ("file_hash", Cond.ceq (vs (generate_file_hash f.content)))] = none)
    (hext : env.extractText f = .ok text)
    (hshort : (text == "" || decide (text.trim.length < 50)) = true) :
    processCandidateFile env uid st f = .inl (f.filename, FailKind.insufficientText) ∧
    ∀ fs, runCandidateBatch env uid (f :: fs) st =
      (st, some (f.filename, FailKind.insufficientText)) := by
  have hp : processCandidateFile env uid st f = .inl (f.filename, FailKind.insufficientText) := by
    simp only [processCandidateFile]
    rw [hdup, hs]
    show afterCandDup env uid st f (generate_file_hash f.content) = _
    simp only [afterCandDup]
    rw [hext]
    show afterCandText env uid st f (generate_file_hash f.content) text = _
    simp only [afterCandText]
    rw [hshort]
    rfl
  exact ⟨hp, fun fs => runCandidateBatch_cons_inl hp fs⟩

theorem C6_short_text_abort_spec_witness :
    processCandidateFile C6env "u1" C6st0 ⟨"b.pdf", [2]⟩ =
      .inl ("b.pdf", FailKind.insufficientText) ∧
    runCandidateBatch C6env "u1" [⟨"b.pdf", [2]⟩] C6st0 =
      (C6st0, some ("b.pdf", FailKind.insufficientText)) := by
  have h := C6_short_text_abort_spec C6env "u1" C6st0 ⟨"b.pdf", [2]⟩ "tooshort"
    (by with_unfolding_all decide) (by with_unfolding_all decide)
    (by with_unfolding_all decide) (by with_unfolding_all decide)
  exact ⟨h.1, h.2 []⟩

/-! ## Claim C7 -/

/-- The run of a two-file batch whose second file has an unsupported type. -/
def C7run : UploadSt × Option (String × FailKind) :=
  runCandidateBatch C6env "u1" [⟨"a.pdf", [1]⟩, ⟨"virus.exe", [2]⟩] C6st0

/-- Claim C7 (counterexample): the claim says an unsupported file type is
rejected non-fatally — skipped, reported, and the batch continues; in the
code the unsupported-format HTTPException is caught by the per-file
`except Exception` and re-raised as a batch-wide 500, so processing stops at
`virus.exe`, nothing is recorded as skipped, and the first file's created
record is not returned.  The JD path behaves the same. -/
theorem C7_unsupported_aborts_batch :
    C7run.2 = some ("virus.exe", FailKind.unsupportedFormat) ∧
    C7run.1.created.length = 1 ∧
    C7run.1.skipped = [] ∧
    processJDFile C5jenv "u1" C6st0 ⟨"virus.exe", [2]⟩ =
      .inl ("virus.exe", FailKind.unsupportedFormat) := by
  exact ⟨by with_unfolding_all decide, by with_unfolding_all decide,
    by with_unfolding_all decide, by with_unfolding_all decide⟩

/-- Claim C7 (amended, proved): a file of unsupported type aborts the entire
batch with an unsupported-format error naming that file (candidate path
immediately; JD path after its duplicate check, for any non-PDF/DOCX name);
earlier files' work stays committed but is not returned. -/
theorem C7_unsupported_abort_spec (cenv : CandEnv) (jenv : JDEnv) (uid : String)
    (st : UploadSt) (f : UFile)
    (h : is_supported_file f.filename = false) :
    processCandidateFile cenv uid st f = .inl (f.filename, FailKind.unsupportedFormat) ∧
    (∀ fs, runCandidateBatch cenv uid (f :: fs) st =
      (st, some (f.filename, FailKind.unsupportedFormat))) ∧
    (findOne st.db.job_descriptions [("uid", Cond.ceq (vs uid)),
        ("file_hash", Cond.ceq (vs (generate_file_hash f.content)))] = none →
      (f.filename.endsWith ".pdf" || f.filename.endsWith ".docx") = false →
      processJDFile jenv uid st f = .inl (f.filename, FailKind.unsupportedFormat)) := by
  have hp : processCandidateFile cenv uid st f = .inl (f.filename, FailKind.unsupportedFormat) := by
    simp only [processCandidateFile]
    rw [h]
    rfl
  refine ⟨hp, fun fs => runCandidateBatch_cons_inl hp fs, fun hdup hext => ?_⟩
  simp only [processJDFile]
  rw [hdup, hext]
  rfl

theorem C7_unsupported_abort_spec_witness :
    processCandidateFile C6env "u1" C6st0 ⟨"virus.exe", [2]⟩ =
      .inl ("virus.exe", FailKind.unsupportedFormat) ∧
    runCandidateBatch C6env "u1" [⟨"virus.exe", [2]⟩] C6st0 =
      (C6st0, some ("virus.exe", FailKind.unsupportedFormat)) ∧
    processJDFile C5jenv "u1" C6st0 ⟨"virus.exe", [2]⟩ =
      .inl ("virus.exe", FailKind.unsupportedFormat) := by
  have h := C7_unsupported_abort_spec C6env C5jenv "u1" C6st0 ⟨"virus.exe", [2]⟩
    (by with_unfolding_all decide)
  exact ⟨h.1, h.2.1 [], h.2.2 (by with_unfolding_all decide) (by with_unfolding_all decide)⟩

/-! ## Claim C9 -/

/-- Claim C9 (confirmed): the document parsers never raise past their own
boundary — they are total, and on any internal failure they return the
fallback record with placeholder identity fields (name "Unknown" /
"Untitled Position") and the error note in the summary field; and an upload
batch is never aborted by a parse failure: with every other step of the file
succeeding, a failing parse attempt still leads to the file being persisted
with the fallback record (candidate path) or processed without abort
(JD path). -/
theorem C9_parser_fallback :
    (∀ e, parse_resume (.error e) = fallbackResume e) ∧
    (∀ e, dget (parse_resume (.error e)) "name" = some (vs "Unknown")) ∧
    (∀ e, dget (parse_resume (.error e)) "professional_summary" =
      some (vs ("Error parsing resume: " ++ e))) ∧
    (∀ e, parse_job_description (.error e) = fallbackJD e) ∧
    (∀ e, dget (parse_job_description (.error e)) "description" =
      some (vs ("Error parsing JD: " ++ e))) ∧
    (∀ (env : CandEnv) (uid : String) (st : UploadSt) (f : UFile) (text e : String),
      is_supported_file f.filename = true →
      findOne st.db.candidates [("uid", Cond.ceq (vs uid)),
        ("file_hash", Cond.ceq (vs (generate_file_hash f.content)))] = none →
      env.extractText f = .ok text →
      (text == "" || decide (text.trim.length < 50)) = false →
      env.parseAttempt text = .error e →
      processCandidateFile env uid st f =
        .inr (persistCandidate env uid st f (generate_file_hash f.content)
          (fallbackResume e))) ∧
    (∀ (jenv : JDEnv) (uid : String) (st : UploadSt) (f : UFile) (text e : String),
      findOne st.db.job_descriptions [("uid", Cond.ceq (vs uid)),
        ("file_hash", Cond.ceq (vs (generate_file_hash f.content)))] = none →
      (f.filename.endsWith ".pdf" || f.filename.endsWith ".docx") = true →
      jenv.extractText f = .ok text →
      jenv.parseJDAttempt text = .error e →
      findAll st.db.candidates [("uid", Cond.ceq (vs uid))] = [] →
      (processJDFile jenv uid st f).isRight = true) := by
  refine ⟨fun e => rfl, fun e => rfl, fun e => rfl, fun e => rfl, fun e => rfl, ?_, ?_⟩
  · intro env uid st f text e hs hdup hext hlong hparse
    simp only [processCandidateFile]
    rw [hdup, hs]
    show afterCandDup env uid st f (generate_file_hash f.content) = _
    simp only [afterCandDup]
    rw [hext]
    show afterCandText env uid st f (generate_file_hash f.content) text = _
    simp only [afterCandText]
    rw [hlong, hparse]
    rfl
  · intro jenv uid st f text e hdup hpdf hext hparse hcands
    simp only [processJDFile]
    rw [hdup, hpdf]
    show (afterJDDup jenv uid st f (generate_file_hash f.content)).isRight = true
    simp only [afterJDDup]
    rw [hext]
    show (titleCheck jenv uid st f (generate_file_hash f.content) text
      (parse_job_description (jenv.parseJDAttempt text))).isRight = true
    rw [hparse]
    show (titleCheck jenv uid st f (generate_file_hash f.content) text
      (fallbackJD e)).isRight = true
    simp only [titleCheck]
    show (persistJD jenv uid st f (generate_file_hash f.content) text
      (fallbackJD e)).isRight = true
    simp only [persistJD, fanoutScores]
    rw [hcands]
    rfl

/-- A candidate-upload environment whose parse attempt always fails. -/
def C9env : CandEnv := ⟨fun _ => .ok C6text, fun _ => .error "boom", vs "t0"⟩

/-- A JD-upload environment whose parse attempt always fails. -/
def C9jenv : JDEnv := ⟨fun _ => .ok C6text, fun _ => .error "boom", fun _ _ => [], vs "t0"⟩

theorem C9_parser_fallback_witness :
    parse_resume (.error "boom") = fallbackResume "boom" ∧
    dget (parse_resume (.error "boom")) "name" = some (vs "Unknown") ∧
    dget (parse_resume (.error "boom")) "professional_summary" =
      some (vs ("Error parsing resume: " ++ "boom")) ∧
    parse_job_description (.error "boom") = fallbackJD "boom" ∧
    dget (parse_job_description (.error "boom")) "description" =
      some (vs ("Error parsing JD: " ++ "boom")) ∧
    processCandidateFile C9env "u1" C6st0 ⟨"a.pdf", [1]⟩ =
      .inr (persistCandidate C9env "u1" C6st0 ⟨"a.pdf", [1]⟩
        (generate_file_hash [1]) (fallbackResume "boom")) ∧
    (processJDFile C9jenv "u1" C6st0 ⟨"a.pdf", [1]⟩).isRight = true := by
  have h := C9_parser_fallback
  exact ⟨h.1 "boom", h.2.1 "boom", h.2.2.1 "boom", h.2.2.2.1 "boom", h.2.2.2.2.1 "boom",
    h.2.2.2.2.2.1 C9env "u1" C6st0 ⟨"a.pdf", [1]⟩ C6text "boom"
      (by with_unfolding_all decide) (by decide) (by rfl) (by with_unfolding_all decide) (by rfl),
    h.2.2.2.2.2.2 C9jenv "u1" C6st0 ⟨"a.pdf", [1]⟩ C6text "boom"
      (by decide) (by with_unfolding_all decide) (by rfl) (by rfl) (by decide)⟩

/-! ## Claim C8 -/

theorem persistCandidate_count (env : CandEnv) (uid : String) (st : UploadSt)
    (f : UFile) (fh : String) (parsed : Doc) :
    (persistCandidate env uid st f fh parsed).created.length +
      (persistCandidate env uid st f fh parsed).skipped.length =
    st.created.length + st.skipped.length + 1 := by
  simp [persistCandidate]
  omega

theorem emailCheck_count {env : CandEnv} {uid : String} {st : UploadSt} {f : UFile}
    {fh : String} {parsed : Doc} {st' : UploadSt}
    (h : emailCheck env uid st f fh parsed = .inr st') :
    st'.created.length + st'.skipped.length = st.created.length + st.skipped.length + 1 := by
  simp only [emailCheck] at h
  split at h
  · split at h
    · split at h
      · injection h with h2
        rw [← h2]
        simp
        try omega
      · injection h with h2
        rw [← h2]
        exact persistCandidate_count env uid st f fh parsed
    · injection h with h2
      rw [← h2]
      exact persistCandidate_count env uid st f fh parsed
  · injection h with h2
    rw [← h2]
    exact persistCandidate_count env uid st f fh parsed

theorem afterCandText_count {env : CandEnv} {uid : String} {st : UploadSt} {f : UFile}
    {fh text : String} {st' : UploadSt}
    (h : afterCandText env uid st f fh text = .inr st') :
    st'.created.length + st'.skipped.length = st.created.length + st.skipped.length + 1 := by
  simp only [afterCandText] at h
  split at h
  · exact absurd h (by simp)
  · exact emailCheck_count h

theorem afterCandDup_count {env : CandEnv} {uid : String} {st : UploadSt} {f : UFile}
    {fh : String} {st' : UploadSt}
    (h : afterCandDup env uid st f fh = .inr st') :
    st'.created.length + st'.skipped.length = st.created.length + st.skipped.length + 1 := by
  simp only [afterCandDup] at h
  split at h
  · exact absurd h (by simp)
  · exact afterCandText_count h

theorem processCandidateFile_count {env : CandEnv} {uid : String} {st : UploadSt}
    {f : UFile} {st' : UploadSt}
    (h : processCandidateFile env uid st f = .inr st') :
    st'.created.length + st'.skipped.length = st.created.length + st.skipped.length + 1 := by
  simp only [processCandidateFile] at h
  split at h
  · exact absurd h (by simp)
  · split at h
    · injection h with h2
      rw [← h2]
      simp
      try omega
    · exact afterCandDup_count h

theorem fanoutScores_counts {env : JDEnv} {uid jd_id jd_text : String}
    {st st' : UploadSt} (h : fanoutScores env uid jd_id jd_text st = .inr st') :
    st'.created = st.created ∧ st'.skipped = st.skipped := by
  simp only [fanoutScores] at h
  split at h
  · injection h with h2
    rw [← h2]
    exact ⟨rfl, rfl⟩
  · split at h
    · exact absurd h (by simp)
    · split at h
      · exact absurd h (by simp)
      · injection h with h2
        rw [← h2]
        exact ⟨rfl, rfl⟩

theorem persistJD_count {env : JDEnv} {uid : String} {st : UploadSt} {f : UFile}
    {fh txt : String} {parsed : Doc} {st' : UploadSt}
    (h : persistJD env uid st f fh txt parsed = .inr st') :
    st'.created.length + st'.skipped.length = st.created.length + st.skipped.length + 1 := by
  simp only [persistJD] at h
  split at h
  next heq => exact absurd h (by simp)
  next st2 heq =>
    injection h with h2
    have hf := fanoutScores_counts heq
    rw [← h2, hf.1, hf.2]
    simp
    try omega

theorem titleCheck_count {env : JDEnv} {uid : String} {st : UploadSt} {f : UFile}
    {fh txt : String} {parsed : Doc} {st' : UploadSt}
    (h : titleCheck env uid st f fh txt parsed = .inr st') :
    st'.created.length + st'.skipped.length = st.created.length + st.skipped.length + 1 := by
  simp only [titleCheck] at h
  split at h
  · split at h
    · injection h with h2
      rw [← h2]
      simp
      try omega
    · exact persistJD_count h
  · exact persistJD_count h

theorem afterJDDup_count {env : JDEnv} {uid : String} {st : UploadSt} {f : UFile}
    {fh : String} {st' : UploadSt}
    (h : afterJDDup env uid st f fh = .inr st') :
    st'.created.length + st'.skipped.length = st.created.length + st.skipped.length + 1 := by
  simp only [afterJDDup] at h
  split at h
  · exact absurd h (by simp)
  · exact titleCheck_count h

theorem processJDFile_count {env : JDEnv} {uid : String} {st : UploadSt}
    {f : UFile} {st' : UploadSt}
    (h : processJDFile env uid st f = .inr st') :
    st'.created.length + st'.skipped.length = st.created.length + st.skipped.length + 1 := by
  simp only [processJDFile] at h
  split at h
  · injection h with h2
    rw [← h2]
    simp
    try omega
  · split at h
    · exact afterJDDup_count h
    · exact absurd h (by simp)

theorem runBatch_count {step : UploadSt → UFile → Sum (String × FailKind) UploadSt}
    (hstep : ∀ st f st', step st f = .inr st' →
      st'.created.length + st'.skipped.length = st.created.length + st.skipped.length + 1) :
    ∀ (files : List UFile) (st : UploadSt),
      (runBatch step files st).2 = none →
      (runBatch step files st).1.created.length + (runBatch step files st).1.skipped.length =
        st.created.length + st.skipped.length + files.length := by
  intro files
  induction files with
  | nil =>
    intro st h
    simp [runBatch]
  | cons f fs ih =>
    intro st h
    cases hp : step st f with
    | inl e =>
      rw [runBatch_cons_inl hp] at h
      exact absurd h (by simp)
    | inr st' =>
      rw [runBatch_cons_inr hp] at h ⊢
      have h1 := ih st' h
      have h2 := hstep st f st' hp
      simp only [List.length_cons]
      omega

/-- The store of the C8 scenario: user u1 already uploaded the bytes `[9]`. -/
def C8db : DB := ⟨[[("uid", vs "u1"), ("file_hash", vs (generate_file_hash [9]))]], [], [], []⟩

/-- Extraction always yields enough text; parsing yields a record without an
email. -/
def C8env : CandEnv := ⟨fun _ => .ok C6text, fun _ => .ok [("name", vs "N")], vs "t0"⟩

/-- The run of a batch with one duplicate file and one fresh file. -/
def C8run : UploadSt × Option (String × FailKind) :=
  runCandidateBatch C8env "u1" [⟨"dup.pdf", [9]⟩, ⟨"new.pdf", [7]⟩] ⟨C8db, [], [], 0⟩

/-- The single candidate record the batch creates. -/
def C8doc : Doc :=
  [("candidate_id", vs "uuid-1"), ("uid", vs "u1"), ("file_id", vs "oid-0"),
   ("file_hash", vs (generate_file_hash [7])), ("resume_filename", vs "new.pdf"),
   ("uploaded_at", vs "t0"), ("name", vs "N"), ("_id", vs "oid-2")]

/-- Claim C8 (counterexample): the claim says the response of a batch with a
skipped file reports both the created records and the skipped files with
reasons; in this run one file is skipped (recorded internally with its
reason) yet the endpoint's response is exactly the list of created candidate
records — the skip information is only logged, never returned. -/
theorem C8_response_omits_skips :
    C8run.2 = none ∧
    C8run.1.skipped =
      [⟨"dup.pdf", "Duplicate file - same content already uploaded"⟩] ∧
    upload_candidates C8env "u1" [⟨"dup.pdf", [9]⟩, ⟨"new.pdf", [7]⟩] C8db 0 =
      .ok [C8doc] := by
  exact ⟨by with_unfolding_all decide, by with_unfolding_all decide,
    by with_unfolding_all decide⟩

/-- Claim C8 (amended, proved): on a batch that completes without aborting,
the response is exactly the list of created records — skipped files and their
reasons are accumulated internally (and logged), not returned — and every
file of the batch is accounted for as either one created record or one
recorded skip (their counts sum to the file count).  Holds for both upload
endpoints. -/
theorem C8_response_reports_created_only (env : CandEnv) (jenv : JDEnv) (uid : String)
    (files : List UFile) (db : DB) (seed : Nat) :
    ((runCandidateBatch env uid files ⟨db, [], [], seed⟩).2 = none →
      upload_candidates env uid files db seed =
        .ok (runCandidateBatch env uid files ⟨db, [], [], seed⟩).1.created ∧
      (runCandidateBatch env uid files ⟨db, [], [], seed⟩).1.created.length +
        (runCandidateBatch env uid files ⟨db, [], [], seed⟩).1.skipped.length =
        files.length) ∧
    ((runJDBatch jenv uid files ⟨db, [], [], seed⟩).2 = none →
      upload_job_descriptions jenv uid files db seed =
        .ok (runJDBatch jenv uid files ⟨db, [], [], seed⟩).1.created ∧
      (runJDBatch jenv uid files ⟨db, [], [], seed⟩).1.created.length +
        (runJDBatch jenv uid files ⟨db, [], [], seed⟩).1.skipped.length =
        files.length) := by
  constructor
  · intro h
    constructor
    · unfold upload_candidates
      cases hr : runCandidateBatch env uid files ⟨db, [], [], seed⟩ with
      | mk st o =>
        cases o with
        | some e => rw [hr] at h; exact absurd h (by simp)
        | none => rfl
    · have := runBatch_count (fun st f st' h => processCandidateFile_count h) files
        ⟨db, [], [], seed⟩ h
      simpa using this
  · intro h
    constructor
    · unfold upload_job_descriptions
      cases hr : runJDBatch jenv uid files ⟨db, [], [], seed⟩ with
      | mk st o =>
        cases o with
        | some e => rw [hr] at h; exact absurd h (by simp)
        | none => rfl
    · have := runBatch_count (fun st f st' h => processJDFile_count h) files
        ⟨db, [], [], seed⟩ h
      simpa using this

theorem C8_response_reports_created_only_witness :
    upload_candidates C8env "u1" [⟨"dup.pdf", [9]⟩, ⟨"new.pdf", [7]⟩] C8db 0 =
      .ok C8run.1.created ∧
    C8run.1.created.length + C8run.1.skipped.length = 2 := by
  have h := (C8_response_reports_created_only C8env C5jenv "u1"
    [⟨"dup.pdf", [9]⟩, ⟨"new.pdf", [7]⟩] C8db 0).1 (by with_unfolding_all decide)
  exact ⟨h.1, h.2⟩

/-! ## Claim C2 -/

/-- A scorer output record for candidate `c1`. -/
def C2score : Doc :=
  [("candidate_id", vs "c1"), ("skills_score", Val.vnum 50)]

/-- Claim C2 (counterexample): the claim says the job-upload fan-out path also
performs an update-or-insert keyed by the (job, candidate) pair, so at most
one MatchScore per pair can ever exist; but that path stores with a plain
`insert_one` (`job_descriptions.py` line 200), so a scorer response listing
the same candidate twice leaves two records for the same pair in the
collection. -/
theorem C2_fanout_duplicate_pair_counterexample :
    (storeScoresFanoutLoop "j1" "u1" (vs "t0")
        [JItem.jdict C2score, JItem.jdict C2score] [] 0).map
      (fun r => countDocs r.1 (pairFilter "j1" (vs "c1"))) = .ok 2 := by
  with_unfolding_all decide

/-- Claim C2 (amended, proved): on the `/match` path — provided the scorer
record does not carry a conflicting `jd_id` field (its spread could override
the key, see C1) and is a well-formed dict — the upsert keyed by
(jd_id, candidate_id) preserves at-most-one-record-per-pair for every pair,
leaves exactly one record for the stored pair, and replaces in place (no row
added) whenever a record for the pair already existed.  The fan-out path has
no such upsert: it only avoids duplicates because each upload creates a fresh
jd_id, and can duplicate a pair within one batch (see the counterexample). -/
theorem C2_match_upsert_spec (jd_id uid score_id : String) (created_at : Val)
    (score : Doc) (cand_v : Val) (ts ts' : List Doc)
    (hnd : NodupKeys score)
    (hj : dget score "jd_id" = none ∨ dget score "jd_id" = some (vs jd_id))
    (hcv : dget score "candidate_id" = some cand_v)
    (H : ∀ p q, countDocs ts (pairFilter p q) ≤ 1)
    (hok : storeScoreMatch jd_id uid score_id created_at (JItem.jdict score) ts = .ok ts')
    (herr : hasKey score "error" = false) :
    (∀ p q, countDocs ts' (pairFilter p q) ≤ 1) ∧
    countDocs ts' (pairFilter jd_id cand_v) = 1 ∧
    ((∃ d ∈ ts, matchesFilter (pairFilter jd_id cand_v) d = true) →
      ts'.length = ts.length) := by
  cases htot : computeTotal score with
  | none => simp [storeScoreMatch, herr, htot] at hok
  | some total =>
    simp [storeScoreMatch, herr, htot, hcv] at hok
    subst hok
    have hdj := dget_score_data_jd score_id jd_id cand_v created_at total uid hnd hj
    have hdc := dget_score_data_cand score_id jd_id cand_v created_at total uid hnd hcv
    have hdn := nodupKeys_score_data score_id jd_id cand_v created_at total score uid
    exact ⟨countDocs_updateOneSet_le hdj hdc hdn H,
           countDocs_updateOneSet_self hdj hdc hdn (H jd_id cand_v),
           fun hex => length_updateOneSet_of_found hex⟩

/-- A pre-existing MatchScore row for the pair (j1, c1). -/
def C2old : Doc :=
  [("jd_id", vs "j1"), ("candidate_id", vs "c1"), ("uid", vs "old"),
   ("total_score", Val.vnum 10)]

/-- The row after the `/match` upsert replaces `C2old` in place. -/
def C2newdoc : Doc :=
  [("jd_id", vs "j1"), ("candidate_id", vs "c1"), ("uid", vs "u1"),
   ("total_score", Val.vnum 25), ("score_id", vs "s1"), ("created_at", vs "t0"),
   ("skills_score", Val.vnum 50)]

theorem C2_match_upsert_spec_witness :
    countDocs [C2newdoc] (pairFilter "j1" (vs "c1")) ≤ 1 ∧
    countDocs [C2newdoc] (pairFilter "j1" (vs "c1")) = 1 ∧
    ([C2newdoc] : List Doc).length = ([C2old] : List Doc).length := by
  have h := C2_match_upsert_spec "j1" "u1" "s1" (vs "t0") C2score (vs "c1")
    [C2old] [C2newdoc] (by unfold NodupKeys; decide) (Or.inl (by decide)) (by decide)
    (fun p q => by rw [countDocs_cons, countDocs_nil]; split <;> omega)
    (by with_unfolding_all decide) (by decide)
  exact ⟨h.1 "j1" (vs "c1"), h.2.1, h.2.2 ⟨C2old, by decide, by decide⟩⟩

theorem C4_top_matches_spec_witness :
    get_top_matches "j1" 50 10 "u1" C4db = .ok [C4doc] ∧
    50 ≤ scoreOf C4doc ∧
    ([C4doc] : List Doc).Pairwise (fun a b => scoreOf b ≤ scoreOf a) ∧
    ([C4doc] : List Doc).length ≤ 10 := by
  have h := (C4_top_matches_spec "j1" 50 10 "u1" C4db).2 [C4doc] (by with_unfolding_all decide)
  exact ⟨by with_unfolding_all decide, h.1 C4doc (by decide), h.2.1, h.2.2⟩

end RecruitPro
